import Mathlib

/-!
Verification of the version-generator core: the version formatters
(versionSchemes package) and the tag-resolution / commit-counting
algorithms of the go-git backend (gitType/gogit_handler.go), shallowly
embedded in Lean.  Commits are modelled as natural-number identifiers,
the commit graph as a parent function, and the preorder commit walk of
go-git's NewCommitPreorderIter as a fuel-bounded stack traversal with a
visited list.
-/

namespace VersionGenerator

/-! ## Formatter embedding (versionSchemes package) -/

/-- Embeds `isMainBranch`: a branch is a trunk branch iff it is
"main", "master" or the sentinel "detached". -/
def isMainBranch (branchName : String) : Bool :=
  branchName == "main" || branchName == "master" || branchName == "detached"

/-- A character is kept by branch sanitization iff it matches the
character class of the regex in `cleanBranchName`. -/
def isAllowedChar (c : Char) : Bool :=
  ('a' ≤ c && c ≤ 'z') || ('A' ≤ c && c ≤ 'Z') || ('0' ≤ c && c ≤ '9') || c == '-'

/-- Per-character action of the regex replacement: a character outside
the allow-list becomes a dash. -/
def sanitizeChar (c : Char) : Char :=
  if isAllowedChar c then c else '-'

/-- Embeds `cleanBranchName`: the regex replaces every single character
outside the allow-list with "-", i.e. it maps `sanitizeChar` over the
characters of the branch name. -/
def cleanBranchName (branchName : String) : String :=
  String.mk (branchName.data.map sanitizeChar)

/-- Embeds `hasVersionPrefix`: whether the string starts with the
character v. -/
def hasLeadingV (version : String) : Bool :=
  match version.data with
  | c :: _ => c == 'v'
  | [] => false

/-- Embeds `ensureVersionPrefix`: re-add a leading v when absent. -/
def ensureLeadingV (version : String) : String :=
  if hasLeadingV version then version else "v" ++ version

/-- Embeds the guarded `version = version[1:]` of `GenerateSemVer`:
strip a single leading v when present. -/
def stripLeadingV (version : String) : String :=
  if hasLeadingV version then String.mk version.data.tail else version

/-- Embeds Go's `%02d` formatting used for the month in `GenerateCalVer`. -/
def pad2 (n : Nat) : String :=
  if n < 10 then "0" ++ toString n else toString n

/-- Embeds `VersioningOptions`. -/
structure VersioningOptions where
  Semver : Bool
  CalVer : Bool
  Simple : Bool
  Hash : Bool
deriving DecidableEq, Repr

/-- Embeds `GenerateLegacy`.  The commit count is a natural number: the
Go counter starts at 0 and only increments. -/
def GenerateLegacy (lastTag : String) (commitsSince : Nat)
    (shortHash branchName : String) (dockerFormat : Bool) : String :=
  if commitsSince = 0 then
    lastTag
  else if isMainBranch branchName then
    if dockerFormat then
      lastTag ++ "-" ++ toString commitsSince
    else
      lastTag ++ "+" ++ toString commitsSince
  else
    let cleanBranch := cleanBranchName branchName
    if dockerFormat then
      lastTag ++ "-" ++ cleanBranch ++ "-" ++ toString commitsSince
    else
      lastTag ++ "-" ++ cleanBranch ++ "+" ++ toString commitsSince

/-- Embeds `GenerateCalVer`.  The call to `time.Now()` is modelled by
passing the current year and month explicitly; the tag argument is kept
to mirror the Go signature, which also never reads it. -/
def GenerateCalVer (year month : Nat) (lastTag : String) (commitsSince : Nat)
    (branchName : String) (includeHash : Bool) (shortHash : String) : String :=
  let calVer := toString year ++ "." ++ pad2 month
  let calVer := if commitsSince > 0 then calVer ++ "." ++ toString commitsSince else calVer
  let calVer :=
    if !isMainBranch branchName then calVer ++ "-" ++ cleanBranchName branchName else calVer
  if includeHash && shortHash != "" then calVer ++ "+" ++ shortHash else calVer

/-- Embeds `GenerateSemVer`. -/
def GenerateSemVer (lastTag : String) (commitsSince : Nat)
    (branchName : String) (includeHash : Bool) (shortHash : String) : String :=
  if commitsSince = 0 && !includeHash then
    lastTag
  else
    let version := stripLeadingV lastTag
    let version :=
      if isMainBranch branchName then
        if commitsSince > 0 then version ++ "-dev." ++ toString commitsSince else version
      else
        let cleanBranch := cleanBranchName branchName
        if commitsSince > 0 then
          version ++ "-" ++ cleanBranch ++ "." ++ toString commitsSince
        else
          version ++ "-" ++ cleanBranch
    let version :=
      if includeHash && shortHash != "" then version ++ "+" ++ shortHash else version
    ensureLeadingV version

/-- Embeds `GenerateSimple`. -/
def GenerateSimple (lastTag shortHash : String) (includeHash : Bool) : String :=
  if includeHash then lastTag ++ "+" ++ shortHash else lastTag

/-- Embeds `GenerateDefault`. -/
def GenerateDefault (lastTag : String) (commitsSince : Nat)
    (shortHash branchName : String) (includeHash : Bool) : String :=
  if commitsSince = 0 && !includeHash then
    lastTag
  else
    let version :=
      if isMainBranch branchName then
        if commitsSince > 0 then lastTag ++ "+" ++ toString commitsSince else lastTag
      else
        let cleanBranch := cleanBranchName branchName
        if commitsSince > 0 then
          lastTag ++ "-" ++ cleanBranch ++ "+" ++ toString commitsSince
        else
          lastTag ++ "-" ++ cleanBranch
    if includeHash then version ++ "+" ++ shortHash else version

/-- Embeds `GenerateVersion`, the scheme dispatcher; the current date is
passed explicitly for the CalVer case. -/
def GenerateVersion (year month : Nat) (lastTag : String) (commitsSince : Nat)
    (shortHash branchName : String) (options : VersioningOptions) : String :=
  if commitsSince = 0 && !options.Hash then
    if options.Simple then lastTag
    else if options.CalVer then GenerateCalVer year month lastTag 0 branchName false shortHash
    else lastTag
  else if options.CalVer then
    GenerateCalVer year month lastTag commitsSince branchName options.Hash shortHash
  else if options.Semver then
    GenerateSemVer lastTag commitsSince branchName options.Hash shortHash
  else if options.Simple then
    GenerateSimple lastTag shortHash options.Hash
  else
    GenerateDefault lastTag commitsSince shortHash branchName options.Hash

/-! ## Git graph embedding (gitType/gogit_handler.go)

Commits are natural-number identifiers.  A `TagEntry` records a tag name
together with its target commit, already resolved through annotation as
in the `object.Tag`/`object.Commit` dereferencing of the handler.  The
commit walk of go-git's `NewCommitPreorderIter` — a depth-first preorder
over all parent edges with a seen-set — is embedded as a fuel-bounded
stack traversal; `fuel` bounds the number of traversal steps and is
large enough for any concrete repository of interest. -/

/-- A tag reference: name and target commit (annotation dereferenced). -/
structure TagEntry where
  name : String
  target : Nat
deriving DecidableEq, Repr

/-- Read-only snapshot of a repository: the HEAD commit, the parent
edges, the committer timestamp of each commit, the tag list and the
branch-head lookup. -/
structure Repo where
  head : Nat
  parents : Nat → List Nat
  ctime : Nat → Int
  tags : List TagEntry
  branchHead : String → Option Nat

/-- Core of the preorder commit walk: pop the top of the stack, skip it
when already seen, otherwise emit it and push its parents on top (so
the first parent is explored first, as in go-git's iterator). -/
def preorderAux (parents : Nat → List Nat) : Nat → List Nat → List Nat → List Nat
  | 0, _, _ => []
  | _ + 1, [], _ => []
  | fuel + 1, c :: stack, seen =>
    if c ∈ seen then
      preorderAux parents fuel stack seen
    else
      c :: preorderAux parents fuel (parents c ++ stack) (c :: seen)

/-- The list of commits yielded by `NewCommitPreorderIter` starting at
`start`, in order. -/
def preorderWalk (parents : Nat → List Nat) (fuel start : Nat) : List Nat :=
  preorderAux parents fuel [start] []

/-- Embeds `isCommitReachable`: equal commits are reachable, otherwise
walk the ancestors of `fr` looking for `tgt`. -/
def isCommitReachable (repo : Repo) (fuel fr tgt : Nat) : Bool :=
  fr == tgt || (preorderWalk repo.parents fuel fr).contains tgt

/-- Embeds the `sort.Slice` by descending commit time followed by
`tags[0]` in `findTagFromCurrentBranch`: select the reachable tag with
the most recent target-commit timestamp.  On timestamp ties Go's sort
is unspecified; this fold keeps the earliest-listed tag, one
deterministic refinement of that behavior. -/
def pickNewest (repo : Repo) (ts : List TagEntry) : Option TagEntry :=
  ts.foldl
    (fun acc t =>
      match acc with
      | none => some t
      | some b => if repo.ctime t.target > repo.ctime b.target then some t else some b)
    none

/-- Embeds `findTagFromCurrentBranch`: keep the tags whose target is
reachable from `commitHash`; if none, return the sentinel "v0.0.0",
else the newest by target-commit time. -/
def findTagFromCurrentBranch (repo : Repo) (fuel commitHash : Nat) : String :=
  let reachable := repo.tags.filter (fun t => isCommitReachable repo fuel commitHash t.target)
  match pickNewest repo reachable with
  | none => "v0.0.0"
  | some t => t.name

/-- Embeds `findCommonAncestor`: equal commits are their own ancestor;
otherwise collect all ancestors of `commit2` and return the first
commit of the walk from `commit1` that lies in that set (`none` embeds
the "no common ancestor found" error). -/
def findCommonAncestor (repo : Repo) (fuel commit1 commit2 : Nat) : Option Nat :=
  if commit1 = commit2 then
    some commit1
  else
    let ancestorsMap := preorderWalk repo.parents fuel commit2
    (preorderWalk repo.parents fuel commit1).find? (fun c => ancestorsMap.contains c)

/-- Embeds the main/master branch lookup at the top of
`findTagFromRebasePoint`: try main, then master. -/
def lookupTrunkHead (repo : Repo) : Option Nat :=
  match repo.branchHead "main" with
  | some h => some h
  | none => repo.branchHead "master"

/-- Embeds `findTagFromRebasePoint`: with no main/master head, or with
no common ancestor, fall back to `findTagFromCurrentBranch` from the
current commit; otherwise resolve from the common ancestor.  The
`branchName` argument is unused, as in the Go function. -/
def findTagFromRebasePoint (repo : Repo) (fuel commitHash : Nat) (branchName : String) : String :=
  match lookupTrunkHead repo with
  | none => findTagFromCurrentBranch repo fuel commitHash
  | some mainHash =>
    match findCommonAncestor repo fuel commitHash mainHash with
    | none => findTagFromCurrentBranch repo fuel commitHash
    | some commonAncestor => findTagFromCurrentBranch repo fuel commonAncestor

/-- Embeds `GetLastTag`: branches other than "main" and "master" (the
sentinel "detached" included) go through the rebase-point logic, the
two trunk names through the current-branch logic. -/
def GetLastTag (repo : Repo) (fuel : Nat) (branchName : String) : String :=
  if branchName ≠ "main" ∧ branchName ≠ "master" then
    findTagFromRebasePoint repo fuel repo.head branchName
  else
    findTagFromCurrentBranch repo fuel repo.head

/-- Embeds the `repo.Tag(tagName)` lookup plus annotated-tag
dereferencing of `GetCommitsSinceTag`. -/
def resolveTagTarget (repo : Repo) (tagName : String) : Option Nat :=
  (repo.tags.find? (fun t => t.name == tagName)).map TagEntry.target

/-- Embeds the counting loop of `GetCommitsSinceTag`: count the walked
commits strictly before the target; when the target never appears, the
whole walk is counted. -/
def countUntil (tgt : Nat) : List Nat → Nat
  | [] => 0
  | c :: rest => if c = tgt then 0 else countUntil tgt rest + 1

/-- Embeds `countAllCommits`: the length of the full preorder walk. -/
def countAllCommits (repo : Repo) (fuel commitHash : Nat) : Nat :=
  (preorderWalk repo.parents fuel commitHash).length

/-- Embeds `GetCommitsSinceTag`.  The sentinel tag counts the whole
history; a missing tag reference is the error case; being exactly on
the tag returns 0 before any walk. -/
def GetCommitsSinceTag (repo : Repo) (fuel : Nat) (tagName : String) : Except String Nat :=
  if tagName = "v0.0.0" then
    .ok (countAllCommits repo fuel repo.head)
  else
    match resolveTagTarget repo tagName with
    | none => .error "failed to get tag reference"
    | some tagCommitHash =>
      if repo.head = tagCommitHash then
        .ok 0
      else
        .ok (countUntil tagCommitHash (preorderWalk repo.parents fuel repo.head))

/-! ## Concrete repositories used as witnesses and counterexamples -/

/-- Three-commit line 0 ← 1 ← 2, HEAD at 2, branch main stopped at 0,
one tag on the HEAD commit. -/
def repoLine : Repo where
  head := 2
  parents := fun n => match n with | 2 => [1] | 1 => [0] | _ => []
  ctime := fun n => (n : Int)
  tags := [⟨"v1.0.0", 2⟩]
  branchHead := fun b => if b = "main" then some 0 else none

/-- Two-commit line 0 ← 1, HEAD at 1, one tag on the root commit. -/
def repoTagged : Repo where
  head := 1
  parents := fun n => if n = 1 then [0] else []
  ctime := fun _ => 0
  tags := [⟨"v1.0.0", 0⟩]
  branchHead := fun _ => none

/-- Two-commit line 0 ← 1, HEAD at 1, no tags, no branches. -/
def repoUntagged : Repo where
  head := 1
  parents := fun n => if n = 1 then [0] else []
  ctime := fun _ => 0
  tags := []
  branchHead := fun _ => none

/-- Two unrelated root commits: HEAD at 1, main at 2, no shared
history. -/
def repoUnrelated : Repo where
  head := 1
  parents := fun _ => []
  ctime := fun _ => 0
  tags := []
  branchHead := fun b => if b = "main" then some 2 else none

/-! ## Helper lemmas for the formatters -/

/-- The sanitizing character map is idempotent: it fixes allowed
characters and sends everything else to the dash, which is allowed. -/
theorem sanitizeChar_idem (c : Char) : sanitizeChar (sanitizeChar c) = sanitizeChar c := by
  unfold sanitizeChar
  by_cases h : isAllowedChar c
  · simp [h]
  · simp [h]

/-- The result of `ensureLeadingV` always starts with v. -/
theorem hasLeadingV_ensureLeadingV (s : String) : hasLeadingV (ensureLeadingV s) = true := by
  unfold ensureLeadingV
  by_cases h : hasLeadingV s
  · simp [h]
  · simp [h]
    rfl

/-! ## Helper lemmas for the commit walk -/

/-- With at least one step of fuel, the preorder walk emits its
starting commit first. -/
theorem preorderWalk_succ (parents : Nat → List Nat) (fuel start : Nat) :
    preorderWalk parents (fuel + 1) start
      = start :: preorderAux parents fuel (parents start ++ []) [start] := by
  simp [preorderWalk, preorderAux]

/-- The preorder walk never emits a commit twice (the seen-set skips
duplicates), and never emits a commit it has already seen. -/
theorem preorderAux_nodup (parents : Nat → List Nat) :
    ∀ (fuel : Nat) (stack seen : List Nat),
      (preorderAux parents fuel stack seen).Nodup
      ∧ ∀ c ∈ preorderAux parents fuel stack seen, c ∉ seen := by
  intro fuel
  induction fuel with
  | zero =>
    intro stack seen
    simp [preorderAux]
  | succ m ih =>
    intro stack seen
    match stack with
    | [] => simp [preorderAux]
    | c :: rest =>
      by_cases h : c ∈ seen
      · simpa [preorderAux, h] using ih rest seen
      · have ihp := ih (parents c ++ rest) (c :: seen)
        have hout : preorderAux parents (m + 1) (c :: rest) seen
            = c :: preorderAux parents m (parents c ++ rest) (c :: seen) := by
          simp [preorderAux, h]
        rw [hout]
        refine ⟨List.nodup_cons.mpr ⟨fun hc => ihp.2 c hc (List.mem_cons_self c seen), ihp.1⟩, ?_⟩
        intro x hx
        rcases List.mem_cons.mp hx with rfl | hx'
        · exact h
        · exact fun hxs => ihp.2 x hx' (List.mem_cons_of_mem c hxs)

/-! ## Claim theorems -/

/-- C1 counterexample: in `repoLine` the branch name "detached" does not
behave like "main": `GetLastTag` routes it through the rebase-point
logic, which resolves from the common ancestor with the main head and
misses the tag on HEAD, yielding the sentinel instead. -/
theorem C1_counterexample :
    GetLastTag repoLine 9 "detached" = "v0.0.0"
    ∧ GetLastTag repoLine 9 "main" = "v1.0.0"
    ∧ GetLastTag repoLine 9 "detached" ≠ GetLastTag repoLine 9 "main" := by
  decide

/-- C1 (amended): `GetLastTag` applies the reachable-tag logic from the
current position exactly for the branch names "main" and "master";
every other branch name — the sentinel "detached" included — is routed
through the rebase-point path. -/
theorem C1_getLastTag_routing (repo : Repo) (fuel : Nat) (branchName : String) :
    GetLastTag repo fuel branchName
      = if branchName = "main" ∨ branchName = "master" then
          findTagFromCurrentBranch repo fuel repo.head
        else
          findTagFromRebasePoint repo fuel repo.head branchName := by
  unfold GetLastTag
  by_cases h1 : branchName = "main" <;> by_cases h2 : branchName = "master" <;>
    simp [h1, h2]

/-- C2: for a non-sentinel tag name that resolves to a target commit,
`GetCommitsSinceTag` succeeds with a (natural-number, hence ≥ 0)
distance that is 0 exactly when HEAD equals the tag's target; when they
are equal the result is 0 even with no walk fuel at all, i.e. without
walking. -/
theorem C2_distance_zero_iff (repo : Repo) (fuel : Nat) (tagName : String) (tagTarget : Nat)
    (hfuel : 0 < fuel) (hsent : tagName ≠ "v0.0.0")
    (hres : resolveTagTarget repo tagName = some tagTarget) :
    ∃ d : Nat, GetCommitsSinceTag repo fuel tagName = .ok d
      ∧ (d = 0 ↔ repo.head = tagTarget)
      ∧ (repo.head = tagTarget → GetCommitsSinceTag repo 0 tagName = .ok 0) := by
  have hmain : GetCommitsSinceTag repo fuel tagName
      = if repo.head = tagTarget then .ok 0
        else .ok (countUntil tagTarget (preorderWalk repo.parents fuel repo.head)) := by
    unfold GetCommitsSinceTag
    rw [if_neg hsent, hres]
  have hzero : GetCommitsSinceTag repo 0 tagName
      = if repo.head = tagTarget then .ok 0
        else .ok (countUntil tagTarget (preorderWalk repo.parents 0 repo.head)) := by
    unfold GetCommitsSinceTag
    rw [if_neg hsent, hres]
  by_cases hh : repo.head = tagTarget
  · exact ⟨0, by rw [hmain, if_pos hh], by simp [hh], fun _ => by rw [hzero, if_pos hh]⟩
  · obtain ⟨m, rfl⟩ : ∃ m, fuel = m + 1 := ⟨fuel - 1, by omega⟩
    refine ⟨countUntil tagTarget (preorderWalk repo.parents (m + 1) repo.head),
      by rw [hmain, if_neg hh], ?_, fun h => absurd h hh⟩
    constructor
    · intro hd
      rw [preorderWalk_succ] at hd
      simp [countUntil, hh] at hd
    · intro h
      exact absurd h hh

/-- C2 witness: in `repoTagged` (HEAD one commit past the tagged root)
the hypotheses hold and the distance is nonzero since HEAD is not the
tag's target. -/
theorem C2_witness :
    0 < 3 ∧ ("v1.0.0" : String) ≠ "v0.0.0"
    ∧ resolveTagTarget repoTagged "v1.0.0" = some 0
    ∧ ∃ d : Nat, GetCommitsSinceTag repoTagged 3 "v1.0.0" = .ok d
        ∧ (d = 0 ↔ repoTagged.head = 0)
        ∧ (repoTagged.head = 0 → GetCommitsSinceTag repoTagged 0 "v1.0.0" = .ok 0) :=
  ⟨by decide, by decide, by decide,
    C2_distance_zero_iff repoTagged 3 "v1.0.0" 0 (by decide) (by decide) (by decide)⟩

/-- C3: when no tag is reachable from the starting commit, the tag
resolver returns the sentinel "v0.0.0" as a normal result, and given
the sentinel `GetCommitsSinceTag` returns the number of distinct
ancestor commits visited by the full walk from HEAD (the walk is
duplicate-free, so its length is the cardinality of the visited set). -/
theorem C3_sentinel_no_tags (repo : Repo) (fuel start : Nat)
    (hno : repo.tags.filter (fun t => isCommitReachable repo fuel start t.target) = []) :
    findTagFromCurrentBranch repo fuel start = "v0.0.0"
    ∧ GetCommitsSinceTag repo fuel "v0.0.0"
        = .ok (preorderWalk repo.parents fuel repo.head).toFinset.card := by
  constructor
  · unfold findTagFromCurrentBranch
    rw [hno]
    rfl
  · unfold GetCommitsSinceTag
    rw [if_pos rfl]
    unfold countAllCommits
    congr 1
    exact (List.toFinset_card_of_nodup
      (preorderAux_nodup repo.parents fuel [repo.head] []).1).symm

/-- C3 witness: `repoUntagged` has no tags at all, so nothing is
reachable and the sentinel/count conclusion holds concretely. -/
theorem C3_witness :
    repoUntagged.tags.filter (fun t => isCommitReachable repoUntagged 3 1 t.target) = []
    ∧ (findTagFromCurrentBranch repoUntagged 3 1 = "v0.0.0"
       ∧ GetCommitsSinceTag repoUntagged 3 "v0.0.0"
           = .ok (preorderWalk repoUntagged.parents 3 repoUntagged.head).toFinset.card) :=
  ⟨by decide, C3_sentinel_no_tags repoUntagged 3 1 (by decide)⟩

/-- C4 counterexample: Semver with distance 0 and includeHash false
returns the tag unchanged, not `v{core}-{branch}`: at tag "v1.2.3" on
branch "feature" the output is "v1.2.3", not "v1.2.3-feature". -/
theorem C4_counterexample :
    GenerateSemVer "v1.2.3" 0 "feature" false "abc1234" = "v1.2.3"
    ∧ ("v1.2.3" : String) ≠ "v1.2.3-feature" := by
  decide

/-- C4 (amended): on a non-trunk branch with distance 0, the Semver
scheme returns `v{core}-{branch}` only when includeHash is set (then
`+shortHash` is appended when the hash is non-empty); with includeHash
unset it short-circuits and returns the tag unchanged. -/
theorem C4_semver_on_tag_nontrunk (lastTag shortHash branchName : String)
    (h : isMainBranch branchName = false) :
    GenerateSemVer lastTag 0 branchName true shortHash
      = ensureLeadingV
          (stripLeadingV lastTag ++ "-" ++ cleanBranchName branchName
            ++ (if shortHash != "" then "+" ++ shortHash else ""))
    ∧ GenerateSemVer lastTag 0 branchName false shortHash = lastTag := by
  constructor
  · unfold GenerateSemVer
    by_cases hs : shortHash != "" <;>
      simp [h, hs, String.append_assoc]
  · unfold GenerateSemVer
    simp

/-- C4 witness: tag "v1.2.3", branch "feature", hash "abc1234". -/
theorem C4_witness :
    isMainBranch "feature" = false
    ∧ (GenerateSemVer "v1.2.3" 0 "feature" true "abc1234"
        = ensureLeadingV
            (stripLeadingV "v1.2.3" ++ "-" ++ cleanBranchName "feature"
              ++ (if "abc1234" != "" then "+" ++ "abc1234" else ""))
       ∧ GenerateSemVer "v1.2.3" 0 "feature" false "abc1234" = "v1.2.3") :=
  ⟨by decide, C4_semver_on_tag_nontrunk "v1.2.3" "abc1234" "feature" (by decide)⟩

/-- C5: the Default scheme without hash and with positive distance
yields `tag+distance` on trunk branches and
`tag-{sanitized branch}+distance` elsewhere. -/
theorem C5_default_no_hash (lastTag shortHash branchName : String) (commitsSince : Nat)
    (hpos : 0 < commitsSince) :
    GenerateDefault lastTag commitsSince shortHash branchName false
      = if isMainBranch branchName then
          lastTag ++ "+" ++ toString commitsSince
        else
          lastTag ++ "-" ++ cleanBranchName branchName ++ "+" ++ toString commitsSince := by
  have h0 : ¬ commitsSince = 0 := by omega
  unfold GenerateDefault
  by_cases h : isMainBranch branchName <;> simp [h0, h, hpos]

/-- C5 witness: the two scenarios of the claim, tag "v1.2.3" with
distance 5 on "main" and distance 3 on "feature/auth". -/
theorem C5_witness :
    (0 < 5 ∧ GenerateDefault "v1.2.3" 5 "abc1234" "main" false = "v1.2.3+5")
    ∧ (0 < 3 ∧ GenerateDefault "v1.2.3" 3 "abc1234" "feature/auth" false
        = "v1.2.3-feature-auth+3") := by
  refine ⟨⟨by decide, ?_⟩, ⟨by decide, ?_⟩⟩
  · rw [C5_default_no_hash "v1.2.3" "abc1234" "main" 5 (by decide)]
    decide
  · rw [C5_default_no_hash "v1.2.3" "abc1234" "feature/auth" 3 (by decide)]
    decide

/-- C6: the Semver scheme with positive distance yields
`v{core}-dev.{distance}` on trunk branches and
`v{core}-{branch}.{distance}` elsewhere, where the core is the tag with
one leading v stripped, and the result always starts with v. -/
theorem C6_semver_distance_pos (lastTag shortHash branchName : String) (commitsSince : Nat)
    (hpos : 0 < commitsSince) :
    GenerateSemVer lastTag commitsSince branchName false shortHash
      = ensureLeadingV
          (stripLeadingV lastTag
            ++ (if isMainBranch branchName then
                  "-dev." ++ toString commitsSince
                else
                  "-" ++ cleanBranchName branchName ++ "." ++ toString commitsSince))
    ∧ hasLeadingV (GenerateSemVer lastTag commitsSince branchName false shortHash) = true := by
  have h0 : ¬ commitsSince = 0 := by omega
  have hmain : GenerateSemVer lastTag commitsSince branchName false shortHash
      = ensureLeadingV
          (stripLeadingV lastTag
            ++ (if isMainBranch branchName then
                  "-dev." ++ toString commitsSince
                else
                  "-" ++ cleanBranchName branchName ++ "." ++ toString commitsSince)) := by
    unfold GenerateSemVer
    by_cases h : isMainBranch branchName <;> simp [h0, h, hpos, String.append_assoc]
  exact ⟨hmain, by rw [hmain]; exact hasLeadingV_ensureLeadingV _⟩

/-- C6 witness: tag "v1.2.3", distance 5 on "main" yields
"v1.2.3-dev.5". -/
theorem C6_witness :
    0 < 5
    ∧ (GenerateSemVer "v1.2.3" 5 "main" false "abc1234"
        = ensureLeadingV
            (stripLeadingV "v1.2.3"
              ++ (if isMainBranch "main" then
                    "-dev." ++ toString 5
                  else
                    "-" ++ cleanBranchName "main" ++ "." ++ toString 5))
       ∧ hasLeadingV (GenerateSemVer "v1.2.3" 5 "main" false "abc1234") = true)
    ∧ GenerateSemVer "v1.2.3" 5 "main" false "abc1234" = "v1.2.3-dev.5" :=
  ⟨by decide, C6_semver_distance_pos "v1.2.3" "abc1234" "main" 5 (by decide), by decide⟩

/-- C7: on the rebase-point path, a missing main and master head, or a
failed common-ancestor search, both fall back to resolving from the
current commit; the function returns a normal string in either case. -/
theorem C7_rebase_fallback (repo : Repo) (fuel commitHash : Nat) (branchName : String) :
    (repo.branchHead "main" = none → repo.branchHead "master" = none →
      findTagFromRebasePoint repo fuel commitHash branchName
        = findTagFromCurrentBranch repo fuel commitHash)
    ∧ (∀ mainHash, lookupTrunkHead repo = some mainHash →
        findCommonAncestor repo fuel commitHash mainHash = none →
        findTagFromRebasePoint repo fuel commitHash branchName
          = findTagFromCurrentBranch repo fuel commitHash) := by
  constructor
  · intro h1 h2
    have h : lookupTrunkHead repo = none := by
      unfold lookupTrunkHead
      rw [h1, h2]
    unfold findTagFromRebasePoint
    rw [h]
  · intro mainHash h hca
    unfold findTagFromRebasePoint
    rw [h]
    show (match findCommonAncestor repo fuel commitHash mainHash with
      | none => findTagFromCurrentBranch repo fuel commitHash
      | some commonAncestor => findTagFromCurrentBranch repo fuel commonAncestor)
        = findTagFromCurrentBranch repo fuel commitHash
    rw [hca]

/-- C7 witness: `repoUntagged` has neither trunk head;
`repoUnrelated` has a main head sharing no history with HEAD, so the
common-ancestor search fails; both fall back to the current commit. -/
theorem C7_witness :
    (repoUntagged.branchHead "main" = none
      ∧ repoUntagged.branchHead "master" = none
      ∧ findTagFromRebasePoint repoUntagged 3 1 "feature"
          = findTagFromCurrentBranch repoUntagged 3 1)
    ∧ (lookupTrunkHead repoUnrelated = some 2
      ∧ findCommonAncestor repoUnrelated 3 1 2 = none
      ∧ findTagFromRebasePoint repoUnrelated 3 1 "feature"
          = findTagFromCurrentBranch repoUnrelated 3 1) :=
  ⟨⟨by decide, by decide,
      (C7_rebase_fallback repoUntagged 3 1 "feature").1 (by decide) (by decide)⟩,
    ⟨by decide, by decide,
      (C7_rebase_fallback repoUnrelated 3 1 "feature").2 2 (by decide) (by decide)⟩⟩

/-- C8: branch-name sanitization is a total function on strings and is
idempotent: sanitizing twice equals sanitizing once. -/
theorem C8_cleanBranchName_idem (s : String) :
    cleanBranchName (cleanBranchName s) = cleanBranchName s := by
  unfold cleanBranchName
  congr 1
  show (List.map sanitizeChar s.data).map sanitizeChar = s.data.map sanitizeChar
  rw [List.map_map]
  exact List.map_congr_left (fun c _ => sanitizeChar_idem c)

/-- C9: the CalVer scheme never reads its tag argument — any two tags
give the same output for the same date and remaining inputs — and the
output is `{Y}.{M:02}`, then `.{distance}` only when the distance is
positive, then `-{branch}` when the branch is not a trunk branch, then
`+{shortHash}` only when includeHash is set and the hash non-empty. -/
theorem C9_calver_shape (year month : Nat) (tag1 tag2 : String) (commitsSince : Nat)
    (branchName : String) (includeHash : Bool) (shortHash : String) :
    GenerateCalVer year month tag1 commitsSince branchName includeHash shortHash
      = GenerateCalVer year month tag2 commitsSince branchName includeHash shortHash
    ∧ GenerateCalVer year month tag1 commitsSince branchName includeHash shortHash
      = toString year ++ "." ++ pad2 month
        ++ (if commitsSince > 0 then "." ++ toString commitsSince else "")
        ++ (if isMainBranch branchName then "" else "-" ++ cleanBranchName branchName)
        ++ (if includeHash && shortHash != "" then "+" ++ shortHash else "") := by
  constructor
  · rfl
  · unfold GenerateCalVer
    by_cases h1 : commitsSince > 0 <;> by_cases h2 : isMainBranch branchName <;>
      by_cases h3 : includeHash && shortHash != "" <;>
        simp [h1, h2, h3, String.append_assoc]

/-- C10: the legacy formatter with distance 0 returns exactly the
resolved tag, whatever the branch, hash and docker flag are. -/
theorem C10_legacy_on_tag (lastTag shortHash branchName : String) (dockerFormat : Bool) :
    GenerateLegacy lastTag 0 shortHash branchName dockerFormat = lastTag := rfl

end VersionGenerator
